import Mathlib

/-!
Verification development for the DSC code-generation backend of rudder-lang
(`src/rudder-lang/src/generators/dsc.rs`).

The generator is shallowly embedded: each Rust function becomes an executable
Lean definition.  Conventions used throughout:

* fallible Rust code (`Result`, `?`) becomes `Except RErr`; Rust panics
  (`panic!`, `unimplemented!`, `unwrap`, indexing) become the distinguished
  error constructors `RErr.panicked` / `RErr.unimplemented`, so that a panic
  is observable and never confused with a normal result;
* `HashMap` values become association lists; `insert` overwrites the
  existing key, `get` is `find?` (iteration order of the model is the list
  order — claims proved here do not depend on Rust's hash order);
* `f64` values (the payload of `Value::Number`) are modelled as `Rat`
  (every finite double is rational; NaN/infinity are outside the model);
* `&mut self` methods become explicit state passing of the `DSC` record;
  methods that take `&mut self` but never write any field (such as
  `value_to_string`) are modelled as pure functions;
* Rust `str::replace` / `str::contains` are only ever used in the source
  with one- or two-character patterns, so they are embedded as structurally
  recursive scans over `List Char` which evaluate by `rfl`.
-/

/-- Source location token (`Token` from the parser).  `Token` equality in
rudder-lang compares only the fragment, so all keyed lookups below compare
fragments. -/
structure Token where
  file : String
  fragment : String
deriving DecidableEq

/-- One fragment of an interpolated string value (`PInterpolatedElement`). -/
inductive PInterpolatedElement where
  | Static : String → PInterpolatedElement
  | Variable : String → PInterpolatedElement
deriving DecidableEq

/-- Boolean condition tree over enumerated classes (`EnumExpression`).
`Compare` carries (variable, enum, item); `RangeCompare` carries
(variable, enum, item1, item2). -/
inductive EnumExpression where
  | And : EnumExpression → EnumExpression → EnumExpression
  | Or : EnumExpression → EnumExpression → EnumExpression
  | Not : EnumExpression → EnumExpression
  | Compare : Token → Token → Token → EnumExpression
  | RangeCompare : Token → Token → Token → Token → EnumExpression
  | Default : Token → EnumExpression
  | NoDefault : Token → EnumExpression
deriving DecidableEq

/- The typed value model (`Value`).  The nested `Vec<Value>` of `List` and
`HashMap<String, Value>` of `Struct` are de-nested into the mutual types
`ValueList` and `FieldList` so that all recursion over values is structural. -/
mutual
inductive Value where
  | String : List PInterpolatedElement → Value
  | Number : Token → Rat → Value
  | Boolean : Token → Bool → Value
  | EnumExpression : EnumExpression → Value
  | List : ValueList → Value
  | Struct : FieldList → Value

inductive ValueList where
  | nil : ValueList
  | cons : Value → ValueList → ValueList

inductive FieldList where
  | nil : FieldList
  | cons : String → Value → FieldList → FieldList
end

/-- Error type.  `user` is `Error::User(..)`; `unimplemented` models
`unimplemented!()`; `panicked` models every other Rust panic
(`panic!`, `unwrap`, out-of-bounds indexing). -/
inductive RErr where
  | user : String → RErr
  | unimplemented : RErr
  | panicked : String → RErr
deriving DecidableEq

/-- Replace every occurrence of the single character `c` by `rep`
(the embedding of `str::replace` for the one-character patterns used by the
generator: `\\`, `"`, `$`, and the control characters escaped by the
debug formatter). -/
def replaceChar (c : Char) (rep : List Char) : List Char → List Char
  | [] => []
  | x :: xs => if x = c then rep ++ replaceChar c rep xs else x :: replaceChar c rep xs

/-- Replace every occurrence of the two-character pattern `c1 c2` by `rep`,
scanning left to right over non-overlapping matches (the embedding of
`str::replace` for the two-character patterns `\n`, `\r`, `\t` — a literal
backslash followed by a letter — used by `value_to_string`). -/
def replaceTwo (c1 c2 : Char) (rep : List Char) : List Char → List Char
  | [] => []
  | [x] => [x]
  | x :: y :: xs =>
      if x = c1 ∧ y = c2 then rep ++ replaceTwo c1 c2 rep xs
      else x :: replaceTwo c1 c2 rep (y :: xs)

/-- String-level wrapper for `replaceChar`. -/
def sreplace (s : String) (c : Char) (rep : String) : String :=
  String.mk (replaceChar c rep.toList s.toList)

/-- String-level wrapper for `replaceTwo`. -/
def sreplace2 (s : String) (c1 c2 : Char) (rep : String) : String :=
  String.mk (replaceTwo c1 c2 rep.toList s.toList)

/-- Embedding of `str::contains` for the one-character patterns `|` and `&`
used by `format_case_expr`. -/
def scontains (s : String) (c : Char) : Bool :=
  s.toList.any (fun x => x = c)

/-- Fragment-keyed lookup in a `HashMap<Token, _>` (token equality compares
fragments only). -/
def tget {α : Type} (m : List (Token × α)) (key : String) : Option α :=
  (m.find? (fun p => p.1.fragment == key)).map (fun p => p.2)

/-- Lookup in a `HashMap<String, _>`. -/
def hget {α : Type} (m : List (String × α)) (key : String) : Option α :=
  (m.find? (fun p => p.1 == key)).map (fun p => p.2)

/-- Overwriting insert into a `HashMap<String, _>`. -/
def hinsert {α : Type} (m : List (String × α)) (key : String) (v : α) : List (String × α) :=
  if m.any (fun p => p.1 == key) then m.map (fun p => if p.1 == key then (key, v) else p)
  else m ++ [(key, v)]

/-- Lookup in a `Value::Struct`'s field map. -/
def fget : FieldList → String → Option Value
  | .nil, _ => none
  | .cons k v rest, key => if k == key then some v else fget rest key

/-- Declaration of a resource state usage (`StateDeclaration`).  `outcome` is
the optional outcome-binding name (its fragment). -/
structure StateDeclaration where
  metadata : List (Token × Value)
  resource : Token
  state : Token
  resource_params : List Value
  state_params : List Value
  outcome : Option String

/- The statement sequence of a state.  `Vec<Statement>` and the
`Vec<(EnumExpression, Vec<Statement>)>` of `Case` are de-nested into the
mutual types `StmtList` and `CaseList` so that recursion is structural. -/
mutual
inductive Statement where
  | StateDeclaration : StateDeclaration → Statement
  | Case : EnumExpression → CaseList → Statement
  | Fail : Value → Statement
  | Log : Value → Statement
  | Return : Token → Statement
  | Noop : Statement

inductive StmtList where
  | nil : StmtList
  | cons : Statement → StmtList → StmtList

inductive CaseList where
  | nil : CaseList
  | cons : EnumExpression → StmtList → CaseList → CaseList
end

/-- Formal parameter of a resource or state (`Parameter`). -/
structure Parameter where
  name : Token
  value : Value

/-- A state definition (`StateDef`). -/
structure StateDef where
  parameters : List Parameter
  metadata : List (Token × Value)
  statements : StmtList

/-- A resource definition (`ResourceDef`). -/
structure ResourceDef where
  parameters : List Parameter
  metadata : List (Token × Value)
  states : List (Token × StateDef)

/-- The abstract syntax tree handed to the generator.  `enum_is_global` is
the `gc.enum_list.enum_is_global` lookup, abstracted as a function. -/
structure AST where
  resources : List (Token × ResourceDef)
  enum_is_global : Token → Option Bool

/-- The generator's mutable state (`struct DSC`). -/
structure DSC where
  current_cases : List String
  var_prefixes : List (String × String)
  prefixes : List (String × Nat)
  return_condition : Option String
deriving DecidableEq

/-- `DSC::new`. -/
def DSC.new : DSC :=
  { current_cases := [], var_prefixes := [], prefixes := [], return_condition := none }

/-- `DSC::new_var`. -/
def new_var (s : DSC) (pfx : String) : DSC :=
  let id := ((hget s.prefixes pfx).getD 0) + 1
  let var := pfx ++ toString id
  { s with
    prefixes := hinsert s.prefixes pfx id
    var_prefixes := hinsert s.var_prefixes pfx var }

/-- `DSC::reset_cases`. -/
def reset_cases (s : DSC) : DSC :=
  { s with current_cases := [] }

/-- `DSC::reset_context`. -/
def reset_context (s : DSC) : DSC :=
  { s with var_prefixes := [], return_condition := none }

/-- `DSC::parameter_to_dsc`: quoted-parameter serialization of a call
argument.  The interpolated string's `format` method (from the ast crate,
not part of this file's source) is modelled from the spec: it maps the
static-text fragments through the escaping closure, the variable fragments
through the variable-reference closure, and concatenates. -/
def parameter_to_dsc (param : Value) (param_name : String) : Except RErr String :=
  match param with
  | .String data =>
      let param_value := String.join (data.map (fun t =>
        match t with
        | .Static x =>
            sreplace (sreplace (sreplace x '\\' "\\\\") '\"' "\\\"") '$' "$\x7bconst.dollar\x7d"
        | .Variable y => "$\x7b" ++ y ++ "\x7d"))
      .ok ("-" ++ param_name ++ " \"" ++ param_value ++ "\"")
  | .Number _ _ => .error .unimplemented
  | .Boolean _ _ => .error .unimplemented
  | .EnumExpression _ => .ok ""
  | .List _ => .error .unimplemented
  | .Struct _ => .error .unimplemented

/-- `DSC::format_case_expr`: compiles a condition tree to the DSC class
syntax.  The Rust method takes `&mut self` but only reads `current_cases`
and `var_prefixes`, so it is modelled as a pure function of the state. -/
def format_case_expr (gc : AST) (s : DSC) : EnumExpression → Except RErr String
  | .And e1 e2 =>
      match format_case_expr gc s e1 with
      | .error e => .error e
      | .ok lexpr =>
        match format_case_expr gc s e2 with
        | .error e => .error e
        | .ok rexpr =>
            let lexpr := if scontains lexpr '|' then "(" ++ lexpr ++ ")" else lexpr
            let rexpr := if scontains rexpr '|' then "(" ++ rexpr ++ ")" else rexpr
            .ok (lexpr ++ "." ++ rexpr)
  | .Or e1 e2 =>
      match format_case_expr gc s e1 with
      | .error e => .error e
      | .ok l =>
        match format_case_expr gc s e2 with
        | .error e => .error e
        | .ok r => .ok (l ++ "|" ++ r)
  | .Not e1 =>
      match format_case_expr gc s e1 with
      | .error e => .error e
      | .ok expr =>
          let expr := if scontains expr '|' || scontains expr '&' then "!(" ++ expr ++ ")" else expr
          .ok ("!" ++ expr)
  | .Compare var e item =>
      if gc.enum_is_global e = some true then .ok item.fragment
      else
        match hget s.var_prefixes var.fragment with
        | some pfx => .ok (pfx ++ "_" ++ e.fragment ++ "_" ++ item.fragment)
        | none => .error (.panicked "var_prefixes index missing")
  | .RangeCompare _ _ _ _ => .error .unimplemented
  | .Default _ =>
      if s.current_cases.isEmpty then .ok "any"
      else .ok ("!(" ++ String.intercalate "|" s.current_cases ++ ")")
  | .NoDefault _ => .ok ""

example : format_case_expr ⟨[], fun _ => some true⟩ DSC.new
    (.And (.Or (.Compare ⟨"", "v"⟩ ⟨"", "e"⟩ ⟨"", "a"⟩) (.Compare ⟨"", "v"⟩ ⟨"", "e"⟩ ⟨"", "b"⟩))
          (.Compare ⟨"", "v"⟩ ⟨"", "e"⟩ ⟨"", "c"⟩)) = .ok "(a|b).c" := rfl

example : format_case_expr ⟨[], fun _ => some true⟩ DSC.new
    (.Not (.Or (.Compare ⟨"", "v"⟩ ⟨"", "e"⟩ ⟨"", "a"⟩) (.Compare ⟨"", "v"⟩ ⟨"", "e"⟩ ⟨"", "b"⟩)))
    = .ok "!!(a|b)" := rfl

example : parameter_to_dsc (.String [.Static "a\"b$c"]) "p" =
    .ok "-p \"a\\\"b$\x7bconst.dollar\x7dc\"" := rfl

/-- Modelled from the spec: the crate helper `map_strings_results`
(not under the provided sources) maps a fallible serializer over a sequence,
propagates the first error, and joins the successful results with the given
separator — the semantics visible at its call sites
(`collect::<Result<Vec<String>>>` followed by `join`). -/
def map_strings_results {α : Type} (l : List α) (f : α → Except RErr String)
    (sep : String) : Except RErr String :=
  match l.mapM f with
  | .error e => .error e
  | .ok parts => .ok (String.intercalate sep parts)

/-- The `f64 as usize` cast applied to a class-parameter index
(`Value::Number(_, n) => *n as usize`): a saturating cast that truncates
toward zero, clamps negative values to 0 and huge values to `usize::MAX`.
For a non-negative rational, truncation toward zero is `num.toNat / den`. -/
def ratToUsize (q : Rat) : Nat :=
  if q.num < 0 then 0 else min (q.num.toNat / q.den) (2 ^ 64 - 1)

/-- Conversion of the `class_parameters` metadata struct into (name, index)
pairs: each value must be a `Number` (cast via `ratToUsize`), anything else
is the recoverable `Error::User` of `get_method_parameters`. -/
def parseClassParams : FieldList → Except RErr (List (String × Nat))
  | .nil => .ok []
  | .cons name v rest =>
      match v with
      | .Number _ n =>
          match parseClassParams rest with
          | .error e => .error e
          | .ok r => .ok ((name, ratToUsize n) :: r)
      | _ => .error (.user "Expected value type for class parameters metadata: Number")

/-- Stable insertion of a (name, index) pair into a list sorted by index
(kept before the first strictly greater key, after equal keys' predecessors'
positions are preserved by `sort_by_idx`). -/
def ins_by_idx (p : String × Nat) : List (String × Nat) → List (String × Nat)
  | [] => [p]
  | q :: qs => if p.2 ≤ q.2 then p :: q :: qs else q :: ins_by_idx p qs

/-- Stable sort by index (`class_param_names.sort_by(|a, b| a.1.cmp(&b.1))`,
where the Rust pair is (name, index) and `.1` is the index). -/
def sort_by_idx : List (String × Nat) → List (String × Nat)
  | [] => []
  | x :: xs => ins_by_idx x (sort_by_idx xs)

/-- The insertion loop of `get_method_parameters`: each (name, index) pair is
inserted at its index into the formal-name list; an index strictly greater
than the current length fails with the out-of-bounds `Error::User`. -/
def insertLoop : List (String × Nat) → List String → Except RErr (List String)
  | [], names => .ok names
  | (name, index) :: rest, names =>
      if index ≤ names.length then insertLoop rest (names.insertIdx index name)
      else .error (.user "Class parameter indexes are out of method bounds")

/-- `DSC::get_method_parameters`: resolves the formal parameter names of the
referenced state (panicking, as the Rust does, when the resource or state is
missing), augments them with the sorted `class_parameters` metadata entries,
and serializes the actual arguments positionally in quoted-parameter mode,
joined by a single space. -/
def get_method_parameters (gc : AST) (state_decl : StateDeclaration) : Except RErr String :=
  match tget gc.resources state_decl.resource.fragment with
  | none =>
      .error (.panicked ("No method relies on the \"" ++ state_decl.resource.fragment ++ "\" resource"))
  | some r =>
    match tget r.states state_decl.state.fragment with
    | none =>
        .error (.panicked ("No method relies on the \"" ++ state_decl.state.fragment ++
          "\" state for \"" ++ state_decl.resource.fragment ++ "\""))
    | some state_def =>
      let param_names := state_def.parameters.map (fun p => p.name.fragment)
      let class_params :=
        match tget state_def.metadata "class_parameters" with
        | some (.Struct pars) => parseClassParams pars
        | _ => .ok []
      match class_params with
      | .error e => .error e
      | .ok class_param_names =>
        match insertLoop (sort_by_idx class_param_names) param_names with
        | .error e => .error e
        | .ok names =>
            map_strings_results (state_decl.resource_params ++ state_decl.state_params).enum
              (fun ix => parameter_to_dsc ix.2 ((names.get? ix.1).getD "unnamed")) " "

/-- canonical textual form of a `Value::Number` payload
(`format!("{}", n)` on the `f64`, rendered from the rational model). -/
def ratToString (q : Rat) : String :=
  if q.den = 1 then toString q.num else toString q.num ++ "/" ++ toString q.den

/- `DSC::value_to_string`: raw-literal serialization.  The Rust method takes
`&mut self` but reads no field, so it is modelled as a pure function.
`Value::EnumExpression` hits `unimplemented!()`. -/
mutual
def value_to_string (v : Value) (string_delim : Bool) : Except RErr String :=
  let delim := if string_delim then "\"" else ""
  match v with
  | .String data =>
      .ok (delim ++ String.join (data.map (fun t =>
        match t with
        | .Static s0 =>
            sreplace2 (sreplace2 (sreplace2 (sreplace s0 '$' "$\x7bconsr.dollar\x7d")
              '\\' 'n' "$\x7bconst.n\x7d") '\\' 'r' "$\x7bconst.r\x7d") '\\' 't' "$\x7bconst.t\x7d"
        | .Variable w => "$\x7b" ++ w ++ "\x7d")) ++ delim)
  | .Number _ n => .ok (ratToString n)
  | .Boolean _ b => .ok (toString b)
  | .EnumExpression _ => .error .unimplemented
  | .List l =>
      match value_list_to_string l with
      | .error e => .error e
      | .ok parts => .ok ("[ " ++ String.intercalate "," parts ++ " ]")
  | .Struct fields =>
      match field_list_to_string fields with
      | .error e => .error e
      | .ok parts => .ok ("\x7b " ++ String.intercalate "," parts ++ " \x7d")

def value_list_to_string : ValueList → Except RErr (List String)
  | .nil => .ok []
  | .cons v rest =>
      match value_to_string v true with
      | .error e => .error e
      | .ok s =>
        match value_list_to_string rest with
        | .error e => .error e
        | .ok r => .ok (s :: r)

def field_list_to_string : FieldList → Except RErr (List String)
  | .nil => .ok []
  | .cons k v rest =>
      match value_to_string v true with
      | .error e => .error e
      | .ok s =>
        match field_list_to_string rest with
        | .error e => .error e
        | .ok r => .ok (("\"" ++ k ++ "\":" ++ s) :: r)
end

example : value_to_string (.List (.cons (.Boolean ⟨"", ""⟩ true) (.cons (.Number ⟨"", ""⟩ 3) .nil))) false
    = .ok "[ true,3 ]" := rfl

example : get_method_parameters
    ⟨[(⟨"", "r"⟩, ⟨[], [], [(⟨"", "st"⟩,
        ⟨[], [(⟨"", "class_parameters"⟩, .Struct (.cons "x" (.Number ⟨"", ""⟩ (-3)) .nil))],
         .nil⟩)]⟩)], fun _ => none⟩
    ⟨[], ⟨"", "r"⟩, ⟨"", "st"⟩, [], [], none⟩ = .ok "" := rfl

/-- Rust `format!("{:?}", s)` / `format!("{:#?}", s)` on a string slice:
a double-quoted literal with backslashes, quotes and the control characters
newline, carriage return and tab escaped. -/
def debugFmt (s : String) : String :=
  "\"" ++
    sreplace (sreplace (sreplace (sreplace (sreplace s '\\' "\\\\") '\"' "\\\"")
      (Char.ofNat 10) "\\n") (Char.ofNat 13) "\\r") (Char.ofNat 9) "\\t"
    ++ "\""

/-- The `get_param_field` closure of `generate_parameters_metadatas`: renders
one field of a parameter struct, returning the empty string when the
parameter is not a struct, the entry is missing, or serialization fails. -/
def get_param_field (param : Value) (entry : String) : String :=
  match param with
  | .Struct fields =>
      match fget fields entry with
      | some val =>
        match value_to_string val false with
        | .ok val_s =>
          match val with
          | .String _ => debugFmt entry ++ ": " ++ debugFmt val_s
          | _ => debugFmt entry ++ ": " ++ val_s
        | .error _ => ""
      | none => ""
  | _ => ""

/-- Body of `generate_parameters_metadatas`: one doc-comment line per
parameter of the "parameters" metadata list. -/
def parameters_lines : ValueList → String
  | .nil => ""
  | .cons param rest =>
      "# @parameter \x7b " ++ get_param_field param "name" ++ ", " ++
        get_param_field param "id" ++ ", " ++ get_param_field param "constraints" ++
        " \x7d\n" ++ parameters_lines rest

/-- `DSC::generate_parameters_metadatas`: a malformed "parameters" entry
(absent, or not a list) is silently skipped. -/
def generate_parameters_metadatas (parameters : Option Value) : String :=
  match parameters with
  | some (.List ps) => parameters_lines ps
  | _ => ""

/-- Removal of a fragment-keyed entry from a metadata map
(`meta.remove(&Token::from(key))`), returning the removed value and the
remaining map. -/
def removeTok (m : List (Token × Value)) (key : String) :
    Option Value × List (Token × Value) :=
  ((m.find? (fun p => p.1.fragment == key)).map (fun p => p.2),
   m.filter (fun p => p.1.fragment != key))

/-- Removal of an entry from the projected string map (`map.remove(entry)`). -/
def removeStr (m : List (String × String)) (key : String) :
    Option String × List (String × String) :=
  ((m.find? (fun p => p.1 == key)).map (fun p => p.2),
   m.filter (fun p => p.1 != key))

/-- Modelled from the spec: the crate helper `map_hashmap_results`
(not under the provided sources) maps a fallible projection over a map's
entries, propagating the first error (as required by the `?` at its call
site in `generate_ncf_metadata`). -/
def map_hashmap_results (m : List (Token × Value))
    (f : Token × Value → Except RErr (String × String)) :
    Except RErr (List (String × String)) :=
  m.mapM f

/-- One `push_metadata` doc-comment line for a well-known key
(`format!("# @{} {:#?}\n", entry, val)`), or nothing when the key was
absent. -/
def pushLine (entry : String) (val : Option String) : String :=
  match val with
  | some v => "# @" ++ entry ++ " " ++ debugFmt v ++ "\n"
  | none => ""

/-- `DSC::generate_ncf_metadata`: removes the "parameters" entry, projects
the remaining metadata through the raw-literal serializer, renders the
well-known keys in the order name, description, version, then the
parameters lines, then the remaining keys as generic annotations. -/
def generate_ncf_metadata (_name : Token) (resource : ResourceDef) : Except RErr String :=
  let meta := removeTok resource.metadata "parameters"
  let parameters := generate_parameters_metadatas meta.1
  match map_hashmap_results meta.2
      (fun p => match value_to_string p.2 false with
        | .error e => .error e
        | .ok vs => .ok (p.1.fragment, vs)) with
  | .error e => .error e
  | .ok map0 =>
      let r1 := removeStr map0 "name"
      let r2 := removeStr r1.2 "description"
      let r3 := removeStr r2.2 "version"
      .ok (pushLine "name" r1.1 ++ pushLine "description" r2.1 ++ pushLine "version" r3.1 ++
        parameters ++
        String.join (r3.2.map (fun kv => "# @" ++ kv.1 ++ " " ++ kv.2 ++ "\n")))

/-- `DSC::format_param_type`. -/
def format_param_type (value : Value) : String :=
  match value with
  | .String _ => "string"
  | .Number _ _ => "long"
  | .Boolean _ _ => "bool"
  | .EnumExpression _ => "enum_expression"
  | .List _ => "list"
  | .Struct _ => "struct"

/-- Auxiliary loop of `pascebab_case` over the characters, carrying the
`is_next_uppercase` flag. -/
def pascebabAux : List Char → Bool → String
  | [], _ => ""
  | c :: rest, up =>
      if c = ' ' ∨ c = '_' ∨ c = '-' then "-" ++ pascebabAux rest true
      else (if up then c.toUpper.toString else c.toString) ++ pascebabAux rest false

/-- `pascebab_case`: hyphen-joined, per-segment-capitalized identifier
(`to_uppercase` is modelled by the simple character upper-casing, which
agrees with it on ASCII). -/
def pascebab_case (s : String) : String :=
  pascebabAux s.toList true

/-- Extraction of the "component" metadata label of a state declaration
(`sd.metadata.get(&"component".into())`): the first fragment of a string
value when it is static, "any" when it is a variable fragment or the entry
is missing or not a string; indexing `s.data[0]` on an empty fragment list
is a Rust panic. -/
def getComponent (md : List (Token × Value)) : Except RErr String :=
  match tget md "component" with
  | some (.String data) =>
      match data with
      | [] => .error (.panicked "index out of bounds: s.data[0]")
      | .Static st :: _ => .ok st
      | .Variable _ :: _ => .ok "any"
  | _ => .ok "any"

/- `DSC::format_statement` and the two folds hidden in its `Case` arm
(`map_strings_results` over the branches, and over each branch's statement
list, both with separator "" and a state-mutating closure).  The folds are
split off as `format_stmt_list` (which returns the list of fragments, so the
caller can join with "" inside a case and with "\n" in `generate`) and
`format_case_list`. -/
mutual
def format_statement (gc : AST) (s : DSC) : Statement → Except RErr (String × DSC)
  | .StateDeclaration sd =>
      let s := match sd.outcome with
        | some var => new_var s var
        | none => s
      (match getComponent sd.metadata with
      | .error e => .error e
      | .ok component =>
        match get_method_parameters gc sd with
        | .error e => .error e
        | .ok params =>
            .ok ("  $local_classes = Merge-ClassContext $local_classes $(" ++
              pascebab_case component ++ " " ++ params ++ " -componentName \"" ++
              component ++
              "\" -reportId $reportId -techniqueName $techniqueName -auditOnly:$auditOnly).get_item(\"classes\")",
              s))
  | .Case _case branches =>
      match format_case_list gc (reset_cases s) branches with
      | .error e => .error e
      | .ok r => .ok (String.intercalate "" r.1, r.2)
  | .Fail msg =>
      match parameter_to_dsc msg "Fail" with
      | .error e => .error e
      | .ok p => .ok ("      \"method_call\" usebundle => ncf_fail(" ++ p ++ ");\n", s)
  | .Log msg =>
      match parameter_to_dsc msg "Log" with
      | .error e => .error e
      | .ok p => .ok ("      \"method_call\" usebundle => ncf_log(" ++ p ++ ");\n", s)
  | .Return outcome =>
      let s := { s with return_condition := some (match s.current_cases.getLast? with
        | none => "!any"
        | some c => "!(" ++ c ++ ")") }
      .ok ((if outcome.fragment == "kept" then "      \"method_call\" usebundle => success();\n"
        else if outcome.fragment == "repaired" then "      \"method_call\" usebundle => repaired();\n"
        else "      \"method_call\" usebundle => error();\n"), s)
  | .Noop => .ok ("", s)

def format_stmt_list (gc : AST) (s : DSC) : StmtList → Except RErr (List String × DSC)
  | .nil => .ok ([], s)
  | .cons st rest =>
      match format_statement gc s st with
      | .error e => .error e
      | .ok r1 =>
        match format_stmt_list gc r1.2 rest with
        | .error e => .error e
        | .ok r2 => .ok (r1.1 :: r2.1, r2.2)

def format_case_list (gc : AST) (s : DSC) : CaseList → Except RErr (List String × DSC)
  | .nil => .ok ([], s)
  | .cons _case vst rest =>
      match format_stmt_list gc s vst with
      | .error e => .error e
      | .ok r1 =>
        match format_case_list gc r1.2 rest with
        | .error e => .error e
        | .ok r2 => .ok (String.intercalate "" r1.1 :: r2.1, r2.2)
end

/-- Split a character list at every occurrence of the separator `c`,
accumulating the current component in reverse (a structurally recursive
`splitOn` for the single-character separator `/`). -/
def splitCharAux (c : Char) : List Char → List Char → List String
  | [], acc => [String.mk acc.reverse]
  | x :: xs, acc =>
      if x = c then String.mk acc.reverse :: splitCharAux c xs []
      else splitCharAux c xs (x :: acc)

/-- `Path::file_name` for the string paths of the model: the last non-empty,
non-"." component of a `/`-separated path, `none` for an empty path or one
terminating in `..`. -/
def fileName (p : String) : Option String :=
  match ((splitCharAux '/' p.toList []).filter (fun c => c != "" && c != ".")).getLast? with
  | some last => if last = ".." then none else some last
  | none => none

example : fileName "/path/my_file.rl" = some "my_file.rl" := rfl
example : fileName "" = none := rfl

/-- `get_dest_file`: output-file resolution for one declaration.  The
`output.unwrap()` on a missing destination is a Rust panic; `to_str` never
fails in the string model. -/
def get_dest_file (input : Option String) (cur_file : String) (output : Option String) :
    Except RErr (Option String) :=
  match input with
  | some filepath =>
      if fileName filepath = some cur_file then
        match output with
        | none => .error (.panicked "called Option::unwrap() on a None value")
        | some dest_filename => .ok (some dest_filename)
      else .ok none
  | none => .ok (some cur_file)

/-- Lookup in the in-memory output-file map (`files.get(&file_to_create)`). -/
def files_get (files : List (String × String)) (key : String) : Option String :=
  (files.find? (fun p => p.1 == key)).map (fun p => p.2)

/-- Overwriting insert into the in-memory output-file map
(`files.insert(file_to_create, content)`). -/
def files_insert (files : List (String × String)) (key v : String) :
    List (String × String) :=
  if files.any (fun p => p.1 == key) then
    files.map (fun p => if p.1 == key then (key, v) else p)
  else files ++ [(key, v)]

/-- The whole-file template of `generate` wrapped around one declaration's
header, parameter block and body. -/
def content_template (header resource_name state_name parameters methods : String) : String :=
  "# generated by rudder-lang\n" ++ header ++ "\nfunction " ++ resource_name ++ "-" ++
    state_name ++ " \x7b\n  [CmdletBinding()]\n  param (\n" ++ parameters ++
    "\n  )\n  \n  $local_classes = New-ClassContext\n  $resources_dir = $PSScriptRoot + \"\\resources\"\n\n" ++
    methods ++ "\n\x7d"

/-- The body of `generate`'s double loop for a single (resource, state)
declaration: resolve the destination file (skipping when it resolves to
none), memoize the header, render the parameter block, compile the
statements, and store the assembled content in the in-memory file map. -/
def process_decl (gc : AST) (source_file dest_file : Option String)
    (technique_metadata : Bool) (st : DSC × List (String × String))
    (d : Token × ResourceDef × Token × StateDef) :
    Except RErr (DSC × List (String × String)) :=
  match get_dest_file source_file d.2.2.1.file dest_file with
  | .error e => .error e
  | .ok none => .ok st
  | .ok (some file_to_create) =>
      let s := reset_context st.1
      let files := st.2
      let header : Except RErr String :=
        match files_get files file_to_create with
        | some h => .ok h
        | none => if technique_metadata then generate_ncf_metadata d.1 d.2.1 else .ok ""
      match header with
      | .error e => .error e
      | .ok header =>
          let method_parameters := String.intercalate ",\n"
            ((d.2.1.parameters ++ d.2.2.2.parameters).map (fun p =>
              "    [parameter(Mandatory=$true)]\n    [" ++ format_param_type p.value ++
                "]$" ++ pascebab_case p.name.fragment))
          let parameters := String.intercalate ",\n"
            ["    [parameter(Mandatory=$true)]\n    [string]$techniqueName",
             "    [parameter(Mandatory=$true)]\n    [string]$reportId",
             "    [switch]$auditOnly",
             method_parameters]
          match format_stmt_list gc s d.2.2.2.statements with
          | .error e => .error e
          | .ok r =>
              let methods := String.intercalate "\n" r.1
              let content := content_template header (pascebab_case d.1.fragment)
                (pascebab_case d.2.2.1.fragment) parameters methods
              .ok (r.2, files_insert files file_to_create content)

/-- The flattened iteration order of `generate`'s double loop: every
(resource name, resource, state name, state) tuple of the AST. -/
def decls_of (gc : AST) : List (Token × ResourceDef × Token × StateDef) :=
  gc.resources.flatMap (fun rp => rp.2.states.map (fun sp => (rp.1, rp.2, sp.1, sp.2)))

/-- The fold of `process_decl` over the declaration list, threading the
generator state and the in-memory file map and propagating the first
error. -/
def go_decls (gc : AST) (source_file dest_file : Option String)
    (technique_metadata : Bool) (st : DSC × List (String × String)) :
    List (Token × ResourceDef × Token × StateDef) →
    Except RErr (DSC × List (String × String))
  | [] => .ok st
  | d :: rest =>
      match process_decl gc source_file dest_file technique_metadata st d with
      | .error e => .error e
      | .ok st1 => go_decls gc source_file dest_file technique_metadata st1 rest

/-- `DSC::generate` (the `Generator` impl).  The first component is the
returned `Result`; the second is the list of (path, content) pairs actually
written to disk: the `File::create`/`write_all` loop runs only after the
whole fold has succeeded, and the empty-placeholder file is created only
when no declaration produced output, so a failing pass writes nothing.
The unused `generic_methods` path parameter is omitted. -/
def generate (gc : AST) (source_file dest_file : Option String)
    (technique_metadata : Bool) :
    Except RErr Unit × List (String × String) :=
  match go_decls gc source_file dest_file technique_metadata (DSC.new, []) (decls_of gc) with
  | .error e => (.error e, [])
  | .ok r =>
      if r.2.isEmpty then
        match dest_file with
        | some filename => (.ok (), [(filename, "")])
        | none => (.error (.user "No file to create"), [])
      else (.ok (), r.2)

/-- An AST with no resources and no global enums, for witnesses that only
exercise the expression compiler. -/
def astEmpty : AST := ⟨[], fun _ => none⟩

/-- An AST in which every enum is global, so `Compare` compiles to the bare
item name. -/
def astGlobal : AST := ⟨[], fun _ => some true⟩

/-- C2 (corrected): among the non-string value shapes, `Number`, `Boolean`,
`List` and `Struct` do fail (with the `unimplemented!` panic of
`parameter_to_dsc`, not a constructed error value), but `EnumExpression` as
a bare parameter does NOT fail: it serializes to the empty string, a normal
textual result. -/
theorem parameter_to_dsc_nonstring (name : String) :
    (∀ t q, parameter_to_dsc (.Number t q) name = .error .unimplemented) ∧
    (∀ t b, parameter_to_dsc (.Boolean t b) name = .error .unimplemented) ∧
    (∀ l, parameter_to_dsc (.List l) name = .error .unimplemented) ∧
    (∀ fl, parameter_to_dsc (.Struct fl) name = .error .unimplemented) ∧
    (∀ e, parameter_to_dsc (.EnumExpression e) name = .ok "") :=
  ⟨fun _ _ => rfl, fun _ _ => rfl, fun _ => rfl, fun _ => rfl, fun _ => rfl⟩

/-- C2 counterexample: serializing a (non-string) `EnumExpression` value in
quoted-parameter mode returns the normal textual result `""` instead of
failing, refuting "for no non-string input does serialization return a
normal textual result". -/
theorem parameter_to_dsc_enum_returns_text :
    parameter_to_dsc (.EnumExpression (.Default ⟨"", ""⟩)) "p" = .ok "" := rfl

/-- C3 (confirmed): a `Default` expression compiles to the constant "any"
when the seen-branch-guards list is empty, and to the negated disjunction
`!(t1|...|tn)` of the recorded guard texts otherwise. -/
theorem format_case_expr_default (gc : AST) (s : DSC) (t : Token) :
    (s.current_cases = [] → format_case_expr gc s (.Default t) = .ok "any") ∧
    (s.current_cases ≠ [] →
      format_case_expr gc s (.Default t) =
        .ok ("!(" ++ String.intercalate "|" s.current_cases ++ ")")) := by
  constructor
  · intro h
    simp [format_case_expr, h]
  · intro h
    cases hc : s.current_cases with
    | nil => exact absurd hc h
    | cons a l => simp [format_case_expr, hc]

/-- C3 witness: after recorded guards "a" and "b" a `Default` compiles to
"!(a|b)"; with no recorded guard it compiles to "any". -/
theorem format_case_expr_default_witness :
    format_case_expr astEmpty ⟨["a", "b"], [], [], none⟩ (.Default ⟨"", ""⟩) = .ok "!(a|b)" ∧
    format_case_expr astEmpty DSC.new (.Default ⟨"", ""⟩) = .ok "any" :=
  ⟨(format_case_expr_default astEmpty ⟨["a", "b"], [], [], none⟩ ⟨"", ""⟩).2 (by decide),
   (format_case_expr_default astEmpty DSC.new ⟨"", ""⟩).1 rfl⟩

/-- C4 (code bug): evaluating the compiler at the failing inputs.  `Not`
over an operand containing the "and" operator "." is NOT parenthesized
(the code tests for `|` and `&`, never for `.`), yielding "!a.b", which the
target syntax parses as `(!a).b`; and `Not` over an operand containing `|`
prepends `!` to an operand already rewritten to `!(...)`, yielding the
double negation "!!(a|b)" instead of "!(a|b)". -/
theorem format_case_expr_not_behavior :
    format_case_expr astGlobal DSC.new
      (.Not (.And (.Compare ⟨"", "v"⟩ ⟨"", "e"⟩ ⟨"", "a"⟩)
                  (.Compare ⟨"", "v"⟩ ⟨"", "e"⟩ ⟨"", "b"⟩))) = .ok "!a.b" ∧
    format_case_expr astGlobal DSC.new
      (.Not (.Or (.Compare ⟨"", "v"⟩ ⟨"", "e"⟩ ⟨"", "a"⟩)
                 (.Compare ⟨"", "v"⟩ ⟨"", "e"⟩ ⟨"", "b"⟩))) = .ok "!!(a|b)" :=
  ⟨rfl, rfl⟩

/-- C5 (confirmed): `And(e1,e2)` compiles each side, wraps a side in
parentheses exactly when its text contains the "or" operator `|`, and joins
the two sides with "."; with both sides containing `|` the result is
exactly "(t1).(t2)". -/
theorem format_case_expr_and (gc : AST) (s : DSC) (e1 e2 : EnumExpression) (t1 t2 : String) :
    format_case_expr gc s e1 = .ok t1 → format_case_expr gc s e2 = .ok t2 →
    format_case_expr gc s (.And e1 e2) =
      .ok ((if scontains t1 '|' then "(" ++ t1 ++ ")" else t1) ++ "." ++
           (if scontains t2 '|' then "(" ++ t2 ++ ")" else t2)) := by
  intro h1 h2
  simp [format_case_expr, h1, h2]

/-- C5 witness: both sides "a|b" and "c|d" contain `|`, and the conjunction
compiles to "(a|b).(c|d)". -/
theorem format_case_expr_and_witness :
    format_case_expr astGlobal DSC.new
      (.And (.Or (.Compare ⟨"", "v"⟩ ⟨"", "e"⟩ ⟨"", "a"⟩)
                 (.Compare ⟨"", "v"⟩ ⟨"", "e"⟩ ⟨"", "b"⟩))
            (.Or (.Compare ⟨"", "v"⟩ ⟨"", "e"⟩ ⟨"", "c"⟩)
                 (.Compare ⟨"", "v"⟩ ⟨"", "e"⟩ ⟨"", "d"⟩))) = .ok "(a|b).(c|d)" :=
  format_case_expr_and astGlobal DSC.new
    (.Or (.Compare ⟨"", "v"⟩ ⟨"", "e"⟩ ⟨"", "a"⟩) (.Compare ⟨"", "v"⟩ ⟨"", "e"⟩ ⟨"", "b"⟩))
    (.Or (.Compare ⟨"", "v"⟩ ⟨"", "e"⟩ ⟨"", "c"⟩) (.Compare ⟨"", "v"⟩ ⟨"", "e"⟩ ⟨"", "d"⟩))
    "a|b" "c|d" rfl rfl

/-- C9 (confirmed): with an expected source file configured, a matching
declaration resolves to the configured destination, a non-matching one
resolves to no output (skipped, not an error); with no expected source the
token's file name is used verbatim. -/
theorem get_dest_file_resolution (src cur : String) (dst : Option String) (d : String) :
    (fileName src = some cur → get_dest_file (some src) cur (some d) = .ok (some d)) ∧
    (fileName src ≠ some cur → get_dest_file (some src) cur dst = .ok none) ∧
    (get_dest_file none cur dst = .ok (some cur)) := by
  refine ⟨fun h => ?_, fun h => ?_, rfl⟩
  · simp [get_dest_file, h]
  · simp [get_dest_file, h]

/-- C9 witness: the spec's own example triple — expected "/path/my_file.rl"
with destination "" resolves token "my_file.rl" to "", token
"wrong_file.rl" to no output, and without an expected source the token is
used verbatim. -/
theorem get_dest_file_resolution_witness :
    get_dest_file (some "/path/my_file.rl") "my_file.rl" (some "") = .ok (some "") ∧
    get_dest_file (some "/path/my_file.rl") "wrong_file.rl" (some "/output/file.rl.dsc") = .ok none ∧
    get_dest_file none "my_file.rl" (some "") = .ok (some "my_file.rl") :=
  ⟨(get_dest_file_resolution "/path/my_file.rl" "my_file.rl" (some "") "").1 rfl,
   (get_dest_file_resolution "/path/my_file.rl" "wrong_file.rl"
      (some "/output/file.rl.dsc") "x").2.1 (by decide),
   (get_dest_file_resolution "/path/my_file.rl" "my_file.rl" (some "") "x").2.2⟩

/-- Membership in a stable insertion: the inserted element or an element of
the original list. -/
theorem mem_ins_by_idx {p x : String × Nat} {l : List (String × Nat)}
    (h : x ∈ ins_by_idx p l) : x = p ∨ x ∈ l := by
  induction l with
  | nil => simpa [ins_by_idx] using h
  | cons q qs ih =>
      by_cases hpq : p.2 ≤ q.2
      · simp [ins_by_idx, hpq] at h ⊢
        tauto
      · simp [ins_by_idx, hpq] at h ⊢
        rcases h with h | h
        · tauto
        · rcases ih h with h1 | h1 <;> tauto

/-- Stable insertion preserves sortedness by index. -/
theorem sorted_ins_by_idx {p : String × Nat} {l : List (String × Nat)}
    (h : l.Sorted (fun a b => a.2 ≤ b.2)) :
    (ins_by_idx p l).Sorted (fun a b => a.2 ≤ b.2) := by
  induction l with
  | nil => simp [ins_by_idx]
  | cons q qs ih =>
      rw [List.sorted_cons] at h
      by_cases hpq : p.2 ≤ q.2
      · rw [ins_by_idx]
        simp only [hpq, if_pos, List.sorted_cons]
        refine ⟨fun b hb => ?_, h⟩
        rcases List.mem_cons.1 hb with rfl | hb
        · exact hpq
        · exact le_trans hpq (h.1 b hb)
      · rw [ins_by_idx]
        simp only [hpq, if_neg, not_false_iff, List.sorted_cons]
        refine ⟨fun b hb => ?_, ih h.2⟩
        rcases mem_ins_by_idx hb with rfl | hb
        · exact le_of_not_le hpq
        · exact h.1 b hb

/-- The class-parameter sort produces a list sorted ascending by index. -/
theorem sorted_sort_by_idx (l : List (String × Nat)) :
    (sort_by_idx l).Sorted (fun a b => a.2 ≤ b.2) := by
  induction l with
  | nil => simp [sort_by_idx]
  | cons x xs ih => exact sorted_ins_by_idx ih

/-- Inserting at an index equal to the list length appends at the end. -/
theorem insertIdx_length_eq_append (names : List String) (name : String) :
    names.insertIdx names.length name = names ++ [name] := by
  induction names with
  | nil => rfl
  | cons a l ih => simpa [List.insertIdx] using ih

/-- The state definition of the out-of-bounds resolver example: an extra
class parameter "x" at index 99 on a state with no formal parameters. -/
def stC6 : StateDef :=
  ⟨[], [(⟨"", "class_parameters"⟩, .Struct (.cons "x" (.Number ⟨"", ""⟩ 99) .nil))], .nil⟩

/-- An AST holding one resource "r" with the single state "st" of `stC6`. -/
def astC6 : AST := ⟨[(⟨"", "r"⟩, ⟨[], [], [(⟨"", "st"⟩, stC6)]⟩)], fun _ => none⟩

/-- The state declaration referencing `astC6`'s resource and state. -/
def sdC6 : StateDeclaration := ⟨[], ⟨"", "r"⟩, ⟨"", "st"⟩, [], [], none⟩

/-- C6 (confirmed): the (name, index) class-parameter pairs are sorted
ascending by index; during insertion an index strictly exceeding the
current length of the formal-name list fails with the out-of-bounds
`Error::User` (never clamping or dropping), while an index equal to the
current length is accepted and appends at the end; on a concrete resolver
input with index 99 and no formal parameters, resolution fails. -/
theorem class_parameter_insertion (l : List (String × Nat)) (name : String) (index : Nat)
    (rest : List (String × Nat)) (names : List String) :
    (sort_by_idx l).Sorted (fun a b => a.2 ≤ b.2) ∧
    (names.length < index →
      insertLoop ((name, index) :: rest) names =
        .error (.user "Class parameter indexes are out of method bounds")) ∧
    (insertLoop ((name, names.length) :: rest) names =
      insertLoop rest (names ++ [name])) ∧
    get_method_parameters astC6 sdC6 =
      .error (.user "Class parameter indexes are out of method bounds") := by
  refine ⟨sorted_sort_by_idx l, fun h => ?_, ?_, rfl⟩
  · have hn : ¬ index ≤ names.length := by omega
    simp [insertLoop, hn]
  · simp [insertLoop, insertIdx_length_eq_append]

/-- C6 witness: index 2 on a one-element name list fails out of bounds;
index 1 (equal to the length) appends at the end. -/
theorem class_parameter_insertion_witness :
    insertLoop [("x", 2)] ["p"] =
      .error (.user "Class parameter indexes are out of method bounds") ∧
    insertLoop [("x", 1)] ["p"] = insertLoop [] (["p"] ++ ["x"]) :=
  ⟨(class_parameter_insertion [] "x" 2 [] ["p"]).2.1 (by decide),
   (class_parameter_insertion [] "x" 1 [] ["p"]).2.2.1⟩

/-- The state definition of the coercion counterexample: class parameter
"x" mapped to the Number value -3. -/
def stC7 : StateDef :=
  ⟨[], [(⟨"", "class_parameters"⟩, .Struct (.cons "x" (.Number ⟨"", ""⟩ (-3)) .nil))], .nil⟩

/-- An AST holding one resource "r" with the single state "st" of `stC7`. -/
def astC7 : AST := ⟨[(⟨"", "r"⟩, ⟨[], [], [(⟨"", "st"⟩, stC7)]⟩)], fun _ => none⟩

/-- The state declaration referencing `astC7`'s resource and state. -/
def sdC7 : StateDeclaration := ⟨[], ⟨"", "r"⟩, ⟨"", "st"⟩, [], [], none⟩

/-- C7 counterexample: the class-parameter value Number(-3) is not a
non-negative integer, yet the resolver does not reject it — the `as usize`
cast coerces it to index 0, the name is inserted there, and resolution
succeeds with the normal result `""`. -/
theorem class_parameters_negative_accepted :
    get_method_parameters astC7 sdC7 = .ok "" := rfl

/-- C7 (corrected): the resolver rejects a `class_parameters` entry exactly
when its value is not a `Number`; a `Number` value is never rejected — it is
coerced through the saturating `as usize` cast, which sends every negative
value to index 0. -/
theorem class_parameters_number_coercion :
    (∀ (name : String) (v : Value) (rest : FieldList),
      (match v with
       | Value.Number _ _ => False
       | _ => True) →
      parseClassParams (.cons name v rest) =
        .error (.user "Expected value type for class parameters metadata: Number")) ∧
    (∀ (name : String) (t : Token) (q : Rat) (rest : FieldList),
      parseClassParams (.cons name (.Number t q) rest) =
        match parseClassParams rest with
        | .error e => .error e
        | .ok r => .ok ((name, ratToUsize q) :: r)) ∧
    (∀ q : Rat, q.num < 0 → ratToUsize q = 0) := by
  refine ⟨?_, fun _ _ _ _ => rfl, fun q h => by simp [ratToUsize, h]⟩
  intro name v rest h
  cases v with
  | Number t q => exact h.elim
  | String d => rfl
  | Boolean t b => rfl
  | EnumExpression e => rfl
  | List l => rfl
  | Struct fl => rfl

/-- C7 witness: a Boolean entry is rejected with the metadata-typing error,
and the negative Number -3 is coerced to index 0. -/
theorem class_parameters_number_coercion_witness :
    parseClassParams (.cons "x" (.Boolean ⟨"", ""⟩ true) .nil) =
      .error (.user "Expected value type for class parameters metadata: Number") ∧
    ratToUsize (-3) = 0 :=
  ⟨class_parameters_number_coercion.1 "x" (.Boolean ⟨"", ""⟩ true) .nil trivial,
   class_parameters_number_coercion.2.2 (-3) (by decide)⟩

/-- A resource whose metadata holds the three well-known keys name,
description and version (as static strings "N", "D", "V"). -/
def resC8 : ResourceDef :=
  ⟨[], [(⟨"", "name"⟩, .String [.Static "N"]),
        (⟨"", "description"⟩, .String [.Static "D"]),
        (⟨"", "version"⟩, .String [.Static "V"])], []⟩

/-- C8 (code bug): evaluating the metadata projector at a resource carrying
all three well-known keys.  Despite the source comment "description must be
the last field", the projector renders the version annotation AFTER the
description annotation — description is not last among the well-known
keys. -/
theorem generate_ncf_metadata_order :
    generate_ncf_metadata ⟨"", "r"⟩ resC8 =
      .ok "# @name \"N\"\n# @description \"D\"\n# @version \"V\"\n" := rfl

/-- The declaration fold distributes over list append: folding `l1 ++ l2`
runs `l1` first and continues with `l2` only on success. -/
theorem go_decls_append (gc : AST) (src dst : Option String) (tm : Bool)
    (l1 l2 : List (Token × ResourceDef × Token × StateDef))
    (st : DSC × List (String × String)) :
    go_decls gc src dst tm st (l1 ++ l2) =
      match go_decls gc src dst tm st l1 with
      | .error e => .error e
      | .ok st1 => go_decls gc src dst tm st1 l2 := by
  induction l1 generalizing st with
  | nil => simp [go_decls]
  | cons d rest ih =>
      simp only [List.cons_append, go_decls]
      cases process_decl gc src dst tm st d with
      | error e => simp
      | ok st1 => simpa using ih st1

/-- C1 (confirmed): generation is all-or-nothing.  If the declaration list
splits as `l1 ++ d :: l2`, the prefix `l1` compiles successfully (possibly
already filling the in-memory file map, including the file `d` targets),
and compiling `d` fails, then `generate` returns that error and the list of
files written to disk is empty — files are written only after every
declaration has compiled. -/
theorem generate_all_or_nothing (gc : AST) (src dst : Option String) (tm : Bool)
    (l1 l2 : List (Token × ResourceDef × Token × StateDef))
    (d : Token × ResourceDef × Token × StateDef)
    (st : DSC × List (String × String)) (e : RErr)
    (hdecls : decls_of gc = l1 ++ d :: l2)
    (hok : go_decls gc src dst tm (DSC.new, []) l1 = .ok st)
    (hfail : process_decl gc src dst tm st d = .error e) :
    generate gc src dst tm = (.error e, []) := by
  unfold generate
  rw [hdecls, go_decls_append gc src dst tm l1 (d :: l2) (DSC.new, []), hok]
  simp [go_decls, hfail]

/-- A `Log "hi"` statement, compiled successfully by the first declaration
of the atomicity witness. -/
def stS1 : StateDef := ⟨[], [], .cons (.Log (.String [.Static "hi"])) .nil⟩

/-- The failing state of the atomicity witness: its own metadata carries an
out-of-bounds class-parameter index (99 on a parameterless state), so
compiling its `StateDeclaration` fails in the parameter resolver. -/
def stS2 : StateDef :=
  ⟨[], [(⟨"", "class_parameters"⟩, .Struct (.cons "x" (.Number ⟨"", ""⟩ 99) .nil))],
   .cons (.StateDeclaration ⟨[], ⟨"", "r"⟩, ⟨"", "s2"⟩, [], [], none⟩) .nil⟩

/-- The resource of the atomicity witness: both states carry the same
source-file token "f.rl", so both declarations target the same output
file. -/
def resC1 : ResourceDef := ⟨[], [], [(⟨"f.rl", "s1"⟩, stS1), (⟨"f.rl", "s2"⟩, stS2)]⟩

/-- The AST of the atomicity witness. -/
def astC1 : AST := ⟨[(⟨"", "r"⟩, resC1)], fun _ => none⟩

/-- First declaration of the atomicity witness (compiles successfully). -/
def d1C1 : Token × ResourceDef × Token × StateDef := (⟨"", "r"⟩, resC1, ⟨"f.rl", "s1"⟩, stS1)

/-- Second declaration of the atomicity witness (fails to compile). -/
def d2C1 : Token × ResourceDef × Token × StateDef := (⟨"", "r"⟩, resC1, ⟨"f.rl", "s2"⟩, stS2)

/-- The generator state after the successful prefix of the atomicity
witness: the in-memory file map already holds the content generated for
"f.rl" by the first declaration. -/
def stMidC1 : DSC × List (String × String) :=
  match go_decls astC1 none (some "out.ps1") false (DSC.new, []) [d1C1] with
  | .ok st => st
  | .error _ => (DSC.new, [])

/-- C1 witness: on the concrete two-declaration AST, the first declaration
had already compiled into the in-memory map for "f.rl", the second (same
destination file) fails, and `generate` returns the error with an empty
write list. -/
theorem generate_all_or_nothing_witness :
    generate astC1 none (some "out.ps1") false =
      (.error (.user "Class parameter indexes are out of method bounds"), []) :=
  generate_all_or_nothing astC1 none (some "out.ps1") false [d1C1] [] d2C1 stMidC1
    (.user "Class parameter indexes are out of method bounds") rfl rfl rfl

/- Invariant: the statement compiler never appends to `current_cases`.
Every arm either leaves the list untouched or (in the `Case` arm, via
`reset_cases`) replaces it by the empty list; the proofs below are a
mutual structural induction over statements, statement lists and branch
lists. -/
mutual
theorem cc_stmt (gc : AST) (s : DSC) : (st : Statement) → ∀ out s2,
    format_statement gc s st = .ok (out, s2) →
    s2.current_cases = s.current_cases ∨ s2.current_cases = []
  | .StateDeclaration sd => by
      intro out s2 h
      simp only [format_statement] at h
      cases hc : getComponent sd.metadata with
      | error e => rw [hc] at h; exact absurd h (by simp)
      | ok component =>
        rw [hc] at h
        cases hp : get_method_parameters gc sd with
        | error e => rw [hp] at h; exact absurd h (by simp)
        | ok params =>
          rw [hp] at h
          simp only [Except.ok.injEq, Prod.mk.injEq] at h
          left
          rw [← h.2]
          cases sd.outcome <;> rfl
  | .Case c branches => by
      intro out s2 h
      simp only [format_statement] at h
      cases hfc : format_case_list gc (reset_cases s) branches with
      | error e => rw [hfc] at h; exact absurd h (by simp)
      | ok r =>
        rw [hfc] at h
        simp only [Except.ok.injEq, Prod.mk.injEq] at h
        right
        rcases cc_case_list gc (reset_cases s) branches r.1 r.2 (by rw [hfc]) with h1 | h1
        · rw [← h.2] at *; simpa [reset_cases] using h1
        · rw [← h.2]; exact h1
  | .Fail msg => by
      intro out s2 h
      simp only [format_statement] at h
      cases hp : parameter_to_dsc msg "Fail" with
      | error e => rw [hp] at h; exact absurd h (by simp)
      | ok p =>
        rw [hp] at h
        simp only [Except.ok.injEq, Prod.mk.injEq] at h
        left; rw [← h.2]
  | .Log msg => by
      intro out s2 h
      simp only [format_statement] at h
      cases hp : parameter_to_dsc msg "Log" with
      | error e => rw [hp] at h; exact absurd h (by simp)
      | ok p =>
        rw [hp] at h
        simp only [Except.ok.injEq, Prod.mk.injEq] at h
        left; rw [← h.2]
  | .Return outcome => by
      intro out s2 h
      simp only [format_statement, Except.ok.injEq, Prod.mk.injEq] at h
      left; rw [← h.2]
  | .Noop => by
      intro out s2 h
      simp only [format_statement, Except.ok.injEq, Prod.mk.injEq] at h
      left; rw [← h.2]

theorem cc_stmt_list (gc : AST) (s : DSC) : (l : StmtList) → ∀ parts s2,
    format_stmt_list gc s l = .ok (parts, s2) →
    s2.current_cases = s.current_cases ∨ s2.current_cases = []
  | .nil => by
      intro parts s2 h
      simp only [format_stmt_list, Except.ok.injEq, Prod.mk.injEq] at h
      left; rw [← h.2]
  | .cons st rest => by
      intro parts s2 h
      simp only [format_stmt_list] at h
      split at h
      · exact absurd h (by simp)
      · rename_i r1 h1
        split at h
        · exact absurd h (by simp)
        · rename_i r2 h2
          simp only [Except.ok.injEq, Prod.mk.injEq] at h
          have ha := cc_stmt gc s st r1.1 r1.2 (by rw [h1])
          have hb := cc_stmt_list gc r1.2 rest r2.1 r2.2 (by rw [h2])
          rw [← h.2]
          rcases hb with hb | hb
          · rw [hb]; exact ha
          · right; exact hb

theorem cc_case_list (gc : AST) (s : DSC) : (l : CaseList) → ∀ parts s2,
    format_case_list gc s l = .ok (parts, s2) →
    s2.current_cases = s.current_cases ∨ s2.current_cases = []
  | .nil => by
      intro parts s2 h
      simp only [format_case_list, Except.ok.injEq, Prod.mk.injEq] at h
      left; rw [← h.2]
  | .cons c vst rest => by
      intro parts s2 h
      simp only [format_case_list] at h
      split at h
      · exact absurd h (by simp)
      · rename_i r1 h1
        split at h
        · exact absurd h (by simp)
        · rename_i r2 h2
          simp only [Except.ok.injEq, Prod.mk.injEq] at h
          have ha := cc_stmt_list gc s vst r1.1 r1.2 (by rw [h1])
          have hb := cc_case_list gc r1.2 rest r2.1 r2.2 (by rw [h2])
          rw [← h.2]
          rcases hb with hb | hb
          · rw [hb]; exact ha
          · right; exact hb
end

/-- C10 (confirmed): no operation of the generator ever appends to the
seen-branch-guards list.  Starting from an empty `current_cases` (as every
generate pass does), the statement compiler — including `Case`, which
resets the list, and every nested branch body — leaves it empty; hence
every `Default` reached from statement compilation compiles to the
always-true constant "any", and every `Return` records the early-return
guard "!any". -/
theorem current_cases_never_appended (gc : AST) :
    (∀ (s : DSC) (st : Statement) (out : String) (s2 : DSC),
      s.current_cases = [] → format_statement gc s st = .ok (out, s2) →
      s2.current_cases = []) ∧
    (∀ (s : DSC) (l : StmtList) (parts : List String) (s2 : DSC),
      s.current_cases = [] → format_stmt_list gc s l = .ok (parts, s2) →
      s2.current_cases = []) ∧
    (∀ (s : DSC) (o : Token) (out : String) (s2 : DSC),
      s.current_cases = [] → format_statement gc s (.Return o) = .ok (out, s2) →
      s2.return_condition = some "!any") ∧
    (∀ (s : DSC) (t : Token), s.current_cases = [] →
      format_case_expr gc s (.Default t) = .ok "any") := by
  refine ⟨?_, ?_, ?_, ?_⟩
  · intro s st out s2 hcc h
    rcases cc_stmt gc s st out s2 h with h1 | h1
    · rw [h1, hcc]
    · exact h1
  · intro s l parts s2 hcc h
    rcases cc_stmt_list gc s l parts s2 h with h1 | h1
    · rw [h1, hcc]
    · exact h1
  · intro s o out s2 hcc h
    simp only [format_statement, Except.ok.injEq, Prod.mk.injEq] at h
    rw [← h.2]
    simp [hcc]
  · intro s t hcc
    simp [format_case_expr, hcc]

/-- C10 witness: from the fresh generator state a `Case` whose branch
contains a `Noop` leaves `current_cases` empty, a `Default` compiles to
"any", and a `Return kept` records the guard "!any". -/
theorem current_cases_never_appended_witness :
    (DSC.new : DSC).current_cases = [] ∧
    format_case_expr astEmpty DSC.new (.Default ⟨"", ""⟩) = .ok "any" ∧
    ({ DSC.new with return_condition := some "!any" } : DSC).return_condition = some "!any" :=
  ⟨rfl,
   (current_cases_never_appended astEmpty).2.2.2 DSC.new ⟨"", ""⟩ rfl,
   (current_cases_never_appended astEmpty).2.2.1 DSC.new ⟨"", "kept"⟩
     "      \"method_call\" usebundle => success();\n"
     { DSC.new with return_condition := some "!any" } rfl rfl⟩
